import Mathlib

/-!
Shallow embedding of the session/token subsystem of the sentinel backend
(`src/apilens_backend`): `apps/auth/services.py`, `apps/auth/managers.py`,
`apps/auth/models.py` and `core/auth/jwt.py`.

Modelling conventions:
* Wall-clock time is seconds since an arbitrary epoch, a `Nat`; each service
  call receives the single `timezone.now()` instant it runs at.
* The database is a `DB` value; Django querysets become list filters/maps and
  `objects.create` appends a row.  `token_hash` carries a UNIQUE index in the
  schema, so operations that insert a row take the fresh raw secret as an
  explicit argument (the source draws it from `secrets.token_urlsafe`) and
  theorems that need it assume its hash is not already present.
* SHA-256 (`_hash_token`) is modelled as an injective tag on the raw string;
  no claim depends on digest collisions.
* `transaction.atomic`: every mutating service is wrapped in it, and an
  exception that escapes the decorated function aborts the transaction.  A
  service is therefore `DB → Except AuthErr (α × DB)`: the error branch carries
  no state, i.e. every write made before the raise is rolled back.
* UUIDs (`id`, `token_family`) are modelled as `Nat`, supplied fresh by the
  caller where the source calls `uuid.uuid4()`.
-/

namespace Sentinel

abbrev Time := Nat

/-- `ACCESS_TOKEN_LIFETIME = timedelta(minutes=15)` (services.py), in seconds. -/
def ACCESS_TOKEN_LIFETIME : Nat := 15 * 60

/-- `REFRESH_TOKEN_LIFETIME = timedelta(days=30)` (services.py), in seconds. -/
def REFRESH_TOKEN_LIFETIME : Nat := 30 * 24 * 60 * 60

/-- `REFRESH_TOKEN_SESSION_LIFETIME = timedelta(hours=24)` (services.py). -/
def REFRESH_TOKEN_SESSION_LIFETIME : Nat := 24 * 60 * 60

/-- `MAGIC_LINK_LIFETIME = timedelta(minutes=15)` (services.py). -/
def MAGIC_LINK_LIFETIME : Nat := 15 * 60

/-- `MAGIC_LINK_RATE_LIMIT = 3  # per minute per email` (services.py). -/
def MAGIC_LINK_RATE_LIMIT : Nat := 3

/-- `_hash_token(raw) = sha256(raw).hexdigest()` (services.py).  SHA-256 is
modelled as an injective tag on the input string. -/
def hash_token (raw_token : String) : String := "sha256:" ++ raw_token

/-- The `User` identity the core consumes (id, email). -/
structure User where
  id : Nat
  email : String
deriving Repr, DecidableEq

/-- One row of `auth_refresh_tokens` (`RefreshToken` in models.py). -/
structure RefreshTok where
  id : Nat
  userId : Nat
  tokenHash : String
  tokenFamily : Nat
  expiresAt : Time
  isRevoked : Bool
  deviceInfo : String
  ipAddress : Option String
  location : String
  lastUsedAt : Time
  createdAt : Time
deriving Repr, DecidableEq

/-- One row of `auth_magic_link_tokens` (`MagicLinkToken` in models.py). -/
structure MagicTok where
  id : Nat
  email : String
  tokenHash : String
  expiresAt : Time
  isUsed : Bool
  ipAddress : Option String
  createdAt : Time
deriving Repr, DecidableEq

/-- The relational store: users plus both credential tables. -/
structure DB where
  users : List User
  refresh : List RefreshTok
  magic : List MagicTok
deriving Repr, DecidableEq

/-- Error taxonomy of `core/exceptions/base.py`, restricted to the kinds the
token subsystem raises.  `TokenInvalidError` and `TokenExpiredError` are
subclasses of `AuthenticationError`; the message string distinguishes the
reuse-detection failure the spec calls `TokenReuseDetected`. -/
inductive AuthErr where
  | tokenInvalid (msg : String)
  | tokenExpired (msg : String)
  | rateLimitExceeded (msg : String)
deriving Repr, DecidableEq

/-- `RefreshToken.is_expired` (models.py): `expires_at <= now`. -/
def RefreshTok.isExpired (t : RefreshTok) (now : Time) : Bool :=
  t.expiresAt ≤ now

/-- `MagicLinkToken.is_expired` (models.py): `expires_at <= now`. -/
def MagicTok.isExpired (m : MagicTok) (now : Time) : Bool :=
  m.expiresAt ≤ now

/-- `RefreshTokenManager.active()` (managers.py): `is_revoked=False`,
`expires_at > now`. -/
def refreshActive (now : Time) (t : RefreshTok) : Bool :=
  !t.isRevoked && now < t.expiresAt

/-- `RefreshTokenManager.for_user(user)` (managers.py): `active()` restricted
to the owner. -/
def for_user (db : DB) (now : Time) (userId : Nat) : List RefreshTok :=
  db.refresh.filter (fun t => refreshActive now t && t.userId == userId)

/-- Python `str.strip()`: drop leading and trailing whitespace.  Stated on the
character list so it reduces inside the kernel. -/
def pyStrip (s : String) : String :=
  ⟨((s.data.dropWhile Char.isWhitespace).reverse.dropWhile
      Char.isWhitespace).reverse⟩

/-- Python `str.lower()` (ASCII case folding, which covers the embedding's
inputs). -/
def pyLower (s : String) : String :=
  ⟨s.data.map Char.toLower⟩

/-- Python slice `s[:n]`. -/
def pyTake (s : String) (n : Nat) : String :=
  ⟨s.data.take n⟩

/-- `TokenService._normalized_device` (services.py):
`(device_info or "").strip()[:255]`. -/
def normalized_device (device_info : String) : String :=
  pyTake (pyStrip device_info) 255

/-- `resolve_location` (core/utils/geoip.py): best-effort external HTTP
geolocation.  The lookup is an external collaborator, not repository logic;
it is modelled as always taking its degraded path and returning `""` (the
value the source yields on any failure, timeout, or missing ip).  No claim
depends on the location string. -/
def resolve_location (_ip_address : Option String) : String := ""

/-! ## Token Codec (`core/auth/jwt.py`)

The PyJWT payload is modelled as a `Claims` record with optional fields (a
missing dictionary key is `none`); `jwt.encode` signs the payload with the
server secret, modelled by the keyed checksum `jwt_mac`.  `jwt.decode`
verifies the signature, then the `require` list `["sub","email","exp","type"]`
(a missing claim raises `MissingRequiredClaimError`, an `InvalidTokenError`),
then expiry (`ExpiredSignatureError` iff `exp <= now`). -/

structure Claims where
  sub : Option String
  email : Option String
  iat : Option Time
  exp : Option Time
  type : Option String
  tfm : Option Nat
  am : Option String
deriving Repr, DecidableEq

/-- Numeric code of a string, used by the modelled signature. -/
def strCode (s : String) : Nat :=
  s.data.foldl (fun a c => a * 1114112 + c.toNat + 1) 7

def optNatCode : Option Nat → Nat
  | none => 0
  | some n => n + 1

def optStrCode : Option String → Nat
  | none => 0
  | some s => strCode s + 1

/-- Numeric code of a claims payload. -/
def claimsCode (c : Claims) : Nat :=
  ((((((optStrCode c.sub * 1000003 + optStrCode c.email) * 1000003
      + optNatCode c.iat) * 1000003 + optNatCode c.exp) * 1000003
      + optStrCode c.type) * 1000003 + optNatCode c.tfm) * 1000003
      + optStrCode c.am)

/-- The HS256 signature over the payload, modelled as a keyed checksum: what
matters for the embedding is that verification recomputes the same function of
(server secret, payload) and compares. -/
def jwt_mac (secret : Nat) (c : Claims) : Nat :=
  secret * 1000003 + claimsCode c

/-- A signed access token: payload plus signature. -/
structure SignedTok where
  claims : Claims
  sig : Nat
deriving Repr, DecidableEq

/-- `create_access_token(payload)` (core/auth/jwt.py): `jwt.encode` with the
server secret. -/
def jwt_encode (secret : Nat) (c : Claims) : SignedTok :=
  ⟨c, jwt_mac secret c⟩

/-- `verify_access_token` (core/auth/jwt.py): `jwt.decode` with
`require=["sub","email","exp","type"]`, mapping `ExpiredSignatureError` to
`TokenExpiredError` and `InvalidTokenError` (bad signature, missing required
claim) to `TokenInvalidError`, then rejecting `type != "access"`.  A pure
function of the server secret, the input token and the clock instant. -/
def verify_access_token (secret : Nat) (tok : SignedTok) (now : Time) :
    Except AuthErr Claims :=
  if tok.sig ≠ jwt_mac secret tok.claims then
    .error (.tokenInvalid "Token is invalid")
  else if tok.claims.sub.isNone || tok.claims.email.isNone
      || tok.claims.exp.isNone || tok.claims.type.isNone then
    .error (.tokenInvalid "Token is invalid")
  else
    match tok.claims.exp with
    | none => .error (.tokenInvalid "Token is invalid")
    | some e =>
      if e ≤ now then .error (.tokenExpired "Token has expired")
      else if tok.claims.type ≠ some "access" then
        .error (.tokenInvalid "Not an access token")
      else .ok tok.claims

/-- `TokenService.create_access_token` (services.py): claims
`sub`, `email`, `iat=now`, `exp=now+15min`, `type="access"`, plus `tfm`/`am`
when supplied, signed with the server secret. -/
def TokenService.create_access_token (secret : Nat) (user : User)
    (token_family : Option Nat) (auth_method : Option String) (now : Time) :
    SignedTok :=
  jwt_encode secret
    { sub := some (toString user.id), email := some user.email,
      iat := some now, exp := some (now + ACCESS_TOKEN_LIFETIME),
      type := some "access", tfm := token_family, am := auth_method }

/-! ## Session Manager (`TokenService`, services.py) -/

/-- The supersede update of `create_refresh_token`: the queryset
`RefreshToken.objects.for_user(user).filter(cond).update(is_revoked=True)`
as a row transformer — a row matching owner, `active()` and `cond` gets
`is_revoked=True`, every other row is untouched. -/
def revokeMatch (now : Time) (userId : Nat) (cond : RefreshTok → Bool)
    (t : RefreshTok) : RefreshTok :=
  if refreshActive now t && t.userId == userId && cond t then
    { t with isRevoked := true }
  else t

/-- `TokenService.create_refresh_token` (services.py).  Generates a raw
secret (`freshRaw`), picks the lifetime from `remember_me`, normalizes the
device string, revokes active same-device rows (falling back to same-ip when
the normalized device is empty — Python truthiness, so an empty-string ip is
no fallback), resolves the location, and inserts the new row with a fresh
family.  Returns `(raw_token, str(token_family))` and the new store. -/
def TokenService.create_refresh_token (db : DB) (now : Time) (user : User)
    (device_info : String) (ip_address : Option String) (remember_me : Bool)
    (freshRaw : String) (freshId freshFamily : Nat) :
    (String × String) × DB :=
  let lifetime := if remember_me then REFRESH_TOKEN_LIFETIME
                  else REFRESH_TOKEN_SESSION_LIFETIME
  let nd := normalized_device device_info
  let refreshed :=
    if nd ≠ "" then
      db.refresh.map (revokeMatch now user.id (fun t => t.deviceInfo == nd))
    else if ip_address.getD "" ≠ "" then
      db.refresh.map (revokeMatch now user.id (fun t => t.ipAddress == ip_address))
    else db.refresh
  let tok : RefreshTok :=
    { id := freshId, userId := user.id, tokenHash := hash_token freshRaw,
      tokenFamily := freshFamily, expiresAt := now + lifetime,
      isRevoked := false, deviceInfo := nd, ipAddress := ip_address,
      location := resolve_location ip_address, lastUsedAt := now,
      createdAt := now }
  ((freshRaw, toString freshFamily), { db with refresh := refreshed ++ [tok] })

/-- The row `RefreshToken.objects.create(...)` inserts in
`create_refresh_token` (services.py): fresh id and family, hash of the fresh
secret, `expires_at = now + lifetime`, normalized device string, the given
ip and its resolved location.  Definitionally equal to the row the operation
appends; named so frame statements can refer to it. -/
def freshCredential (now : Time) (user : User) (device_info : String)
    (ip : Option String) (rm : Bool) (fr : String) (fid fam : Nat) :
    RefreshTok :=
  { id := fid, userId := user.id, tokenHash := hash_token fr,
    tokenFamily := fam,
    expiresAt := now + (if rm then REFRESH_TOKEN_LIFETIME
      else REFRESH_TOKEN_SESSION_LIFETIME),
    isRevoked := false, deviceInfo := normalized_device device_info,
    ipAddress := ip, location := resolve_location ip,
    lastUsedAt := now, createdAt := now }

/-- `TokenService.rotate_refresh_token` (services.py).  Looks the credential
up by hash (`DoesNotExist` → `TokenInvalidError("Invalid refresh token")`).
If it is already revoked, the source updates every row of its family to
`is_revoked=True` and raises `TokenInvalidError("Refresh token reuse
detected")`; the method is decorated `@transaction.atomic`, and the raise
escapes the atomic block, so that family update is rolled back — accordingly
the error branch of this model carries no successor state.  Otherwise an
expired credential fails `TokenExpiredError`; a live one is revoked (saved by
primary key with `update_fields=["is_revoked"]`, so `last_used_at` is not
touched) and a new credential is inserted in the same family with
`expires_at = now + (old.expires_at - now)` and the old device/ip/location.
Returns `(access_token, new_raw, user)`. -/
def TokenService.rotate_refresh_token (db : DB) (now : Time) (secret : Nat)
    (raw_token : String) (freshRaw : String) (freshId : Nat) :
    Except AuthErr ((SignedTok × String × User) × DB) :=
  match db.refresh.find? (fun t => t.tokenHash == hash_token raw_token) with
  | none => .error (.tokenInvalid "Invalid refresh token")
  | some tok =>
    if tok.isRevoked then
      .error (.tokenInvalid "Refresh token reuse detected")
    else if tok.isExpired now then
      .error (.tokenExpired "Refresh token has expired")
    else
      let user := (db.users.find? (fun u => u.id == tok.userId)).getD
        ⟨tok.userId, ""⟩
      let newTok : RefreshTok :=
        { id := freshId, userId := tok.userId,
          tokenHash := hash_token freshRaw, tokenFamily := tok.tokenFamily,
          expiresAt := now + (tok.expiresAt - now),
          isRevoked := false, deviceInfo := tok.deviceInfo,
          ipAddress := tok.ipAddress, location := tok.location,
          lastUsedAt := now, createdAt := now }
      let refreshed := db.refresh.map
        (fun t => if t.id == tok.id then { t with isRevoked := true } else t)
      let access := TokenService.create_access_token secret user
        (some tok.tokenFamily) none now
      .ok ((access, freshRaw, user), { db with refresh := refreshed ++ [newTok] })

/-- `TokenService.is_session_alive` (services.py): a matching, non-revoked
credential with `expires_at > now` exists; side-effect-free. -/
def TokenService.is_session_alive (db : DB) (now : Time) (raw_token : String) :
    Bool :=
  db.refresh.any (fun t =>
    t.tokenHash == hash_token raw_token && !t.isRevoked && now < t.expiresAt)

/-- The dedup key of `get_active_sessions`:
`f"{normalized_device(row.device_info)}|{row.ip_address or ''}"`. -/
def session_fingerprint (t : RefreshTok) : String :=
  normalized_device t.deviceInfo ++ "|" ++ t.ipAddress.getD ""

/-- `order_by("-last_used_at")`: most recent activity first. -/
def byRecency (a b : RefreshTok) : Prop :=
  b.lastUsedAt ≤ a.lastUsedAt

instance : DecidableRel byRecency :=
  fun a b => Nat.decLe b.lastUsedAt a.lastUsedAt

instance : IsTotal RefreshTok byRecency :=
  ⟨fun a b => (Nat.le_total a.lastUsedAt b.lastUsedAt).symm⟩

instance : IsTrans RefreshTok byRecency :=
  ⟨fun _ _ _ hab hbc => Nat.le_trans hbc hab⟩

/-- The dedup loop of `get_active_sessions`: keep a row only when its
fingerprint has not been seen yet. -/
def dedupByFp : List String → List RefreshTok → List RefreshTok
  | _, [] => []
  | seen, r :: rs =>
    if session_fingerprint r ∈ seen then dedupByFp seen rs
    else r :: dedupByFp (session_fingerprint r :: seen) rs

/-- `TokenService.get_active_sessions` (services.py): the owner's `active()`
rows ordered by `-last_used_at`, deduplicated by fingerprint keeping the
first occurrence. -/
def TokenService.get_active_sessions (db : DB) (now : Time) (userId : Nat) :
    List RefreshTok :=
  dedupByFp [] (List.insertionSort byRecency (for_user db now userId))

/-! ## Magic Link Issuer (`MagicLinkService`, services.py) -/

/-- `email.lower().strip()` as in `create_and_send`. -/
def normalized_email (email : String) : String :=
  pyStrip (pyLower email)

/-- The sliding-window count of `create_and_send`: rows for this email with
`created_at >= now - 1 minute`.  (`Nat` truncation at `now < 60` agrees with
the integer semantics, since `created_at ≥ 0` always.) -/
def recent_count (db : DB) (now : Time) (email : String) : Nat :=
  (db.magic.filter (fun m => m.email == email && now - 60 ≤ m.createdAt)).length

/-- `MagicLinkService.create_and_send` (services.py).  Normalizes the email,
rejects with `RateLimitError` when the trailing-minute count is already at
the limit, otherwise inserts the row with a 15-minute expiry and hands the
URL to the external email sender (an external collaborator, modelled as
succeeding; were it to raise, `transaction.atomic` would also discard the
row). -/
def MagicLinkService.create_and_send (db : DB) (now : Time) (email : String)
    (ip_address : Option String) (freshRaw : String) (freshId : Nat) :
    Except AuthErr DB :=
  let e := normalized_email email
  if MAGIC_LINK_RATE_LIMIT ≤ recent_count db now e then
    .error (.rateLimitExceeded "Too many magic link requests. Please wait a moment.")
  else
    .ok { db with magic := db.magic ++
      [{ id := freshId, email := e, tokenHash := hash_token freshRaw,
         expiresAt := now + MAGIC_LINK_LIFETIME, isUsed := false,
         ipAddress := ip_address, createdAt := now }] }

/-- `MagicLinkService.verify` (services.py): hash lookup (`DoesNotExist` →
`TokenInvalidError("Invalid magic link")`), then the used check, then the
expiry check; on success `is_used` is set (saved by primary key) and the
stored email returned. -/
def MagicLinkService.verify (db : DB) (now : Time) (raw_token : String) :
    Except AuthErr (String × DB) :=
  match db.magic.find? (fun m => m.tokenHash == hash_token raw_token) with
  | none => .error (.tokenInvalid "Invalid magic link")
  | some m =>
    if m.isUsed then .error (.tokenInvalid "Magic link has already been used")
    else if m.isExpired now then .error (.tokenExpired "Magic link has expired")
    else
      let updated := db.magic.map
        (fun x => if x.id == m.id then { x with isUsed := true } else x)
      .ok (m.email, { db with magic := updated })

/-! ## Iterated rotation harness (claim C2)

`rotateChain` threads `rotate_refresh_token` over a list of
`(time, fresh raw secret, fresh id)` steps, each step rotating the raw secret
produced by the previous one — the n-rotation scenario of the spec's
"rotation preserves absolute expiry" property.  `rotateChainFresh` is the
hash-freshness side condition the schema's UNIQUE index on `token_hash`
guarantees: at every step the fresh secret's hash is not yet in the store. -/

def rotateChain (secret : Nat) : DB → String → List (Time × String × Nat) →
    Except AuthErr (String × DB)
  | db, raw, [] => .ok (raw, db)
  | db, raw, (t, fr, fid) :: rest =>
    match TokenService.rotate_refresh_token db t secret raw fr fid with
    | .error e => .error e
    | .ok ((_, nr, _), db') => rotateChain secret db' nr rest

def rotateChainFresh (secret : Nat) : DB → String → List (Time × String × Nat)
    → Bool
  | _, _, [] => true
  | db, raw, (t, fr, fid) :: rest =>
    db.refresh.all (fun s => s.tokenHash != hash_token fr) &&
      (match TokenService.rotate_refresh_token db t secret raw fr fid with
       | .error _ => true
       | .ok ((_, nr, _), db') => rotateChainFresh secret db' nr rest)

/-! ## Concrete run for claim C2's witness: create at t=0, rotate at t=5 and
t=9 -/

def c2user : User := ⟨1, "u@x.com"⟩

def c2db1 : DB :=
  (TokenService.create_refresh_token ⟨[c2user], [], []⟩ 0 c2user "dev" none
    true "rA" 1 10).2

def c2steps : List (Time × String × Nat) := [(5, "rB", 2), (9, "rC", 3)]

/-- The store after both rotations: the originals revoked, the last successor
live with the ORIGINAL absolute expiry `t0 + 30 days`. -/
def c2dbFinal : DB :=
  ⟨[c2user],
   [⟨1, 1, hash_token "rA", 10, REFRESH_TOKEN_LIFETIME, true, "dev", none,
     "", 0, 0⟩,
    ⟨2, 1, hash_token "rB", 10, REFRESH_TOKEN_LIFETIME, true, "dev", none,
     "", 5, 5⟩,
    ⟨3, 1, hash_token "rC", 10, REFRESH_TOKEN_LIFETIME, false, "dev", none,
     "", 9, 9⟩],
   []⟩

/-! ## Concrete store for claim C8's witness: two live credentials sharing
the `(device, ip)` fingerprint with different `last_used_at` -/

def c8tokOld : RefreshTok :=
  ⟨1, 1, hash_token "o", 10, 1000, false, "d", some "9.9.9.9", "", 10, 0⟩

def c8tokNew : RefreshTok :=
  ⟨2, 1, hash_token "n", 11, 1000, false, "d", some "9.9.9.9", "", 20, 0⟩

def c8db : DB := ⟨[], [c8tokOld, c8tokNew], []⟩

/-! ## Concrete scenario for reuse detection (claim C1) -/

def c1user : User := ⟨1, "u@x.com"⟩

/-- Store after `create_refresh_token` at `t=0` for device `"dev"`:
credential A (`"rawA"`), family 10, 30-day expiry. -/
def c1dbA : DB :=
  (TokenService.create_refresh_token ⟨[c1user], [], []⟩ 0 c1user "dev" none true
    "rawA" 1 10).2

/-- Store after the first, successful `rotate("rawA")` at `t=5`: A revoked,
successor B (`"rawB"`) live in the same family. -/
def c1dbB : DB :=
  ⟨[c1user],
   [{ id := 1, userId := 1, tokenHash := hash_token "rawA", tokenFamily := 10,
      expiresAt := REFRESH_TOKEN_LIFETIME, isRevoked := true,
      deviceInfo := "dev", ipAddress := none, location := "",
      lastUsedAt := 0, createdAt := 0 },
    { id := 2, userId := 1, tokenHash := hash_token "rawB", tokenFamily := 10,
      expiresAt := REFRESH_TOKEN_LIFETIME, isRevoked := false,
      deviceInfo := "dev", ipAddress := none, location := "",
      lastUsedAt := 5, createdAt := 5 }],
   []⟩

def c1access : SignedTok :=
  TokenService.create_access_token 99 c1user (some 10) none 5

/-! ## Concrete store for claim C9's witness -/

def c9tok : RefreshTok :=
  ⟨1, 1, hash_token "z", 5, 10, true, "", none, "", 0, 0⟩

def c9m : MagicTok := ⟨1, "a@b.com", hash_token "z", 10, true, none, 0⟩

def c9db : DB := ⟨[], [c9tok], [c9m]⟩

/-! ## Concrete store for claim C4's witness -/

def c4m : MagicTok := ⟨1, "a@b.com", hash_token "s", 100, false, none, 0⟩

def c4db : DB := ⟨[], [], [c4m]⟩

/-- `c4db` after a successful verify: the row is marked used. -/
def c4dbUsed : DB := ⟨[], [], [⟨1, "a@b.com", hash_token "s", 100, true, none, 0⟩]⟩

/-- Access token for claim C7's witness: issued with server secret 42 at
`t=0`. -/
def c7tok : SignedTok :=
  TokenService.create_access_token 42 ⟨1, "a@b.com"⟩ none none 0

/-! ## Concrete store for claim C6's witness: three magic-link rows for the
same email created at t=0, t=10 and t=20 -/

def c6db : DB :=
  ⟨[], [],
   [⟨1, "a@b.com", hash_token "m1", 900, false, none, 0⟩,
    ⟨2, "a@b.com", hash_token "m2", 910, false, none, 10⟩,
    ⟨3, "a@b.com", hash_token "m3", 920, false, none, 20⟩]⟩

/-! ## Concrete store for claim C10's witness: an expired but non-revoked
credential for device `"d"` -/

def c10tok : RefreshTok :=
  ⟨1, 1, hash_token "old", 10, 50, false, "d", none, "", 0, 0⟩

/-- A live credential of the same owner for a different device, which the
supersede step must leave untouched. -/
def c10tok2 : RefreshTok :=
  ⟨5, 1, hash_token "keep", 20, 1000000000, false, "e", none, "", 0, 0⟩

def c10db : DB := ⟨[⟨1, "u@x.com"⟩], [c10tok, c10tok2], []⟩

/-! ## Concrete stores for claim C3: two sessions for the same device, the
second created after the first expired -/

def c3user : User := ⟨1, "u@x.com"⟩

/-- Store after `create_session(user, "d", remember_me=False)` at `t=0`:
one credential for device `"d"` expiring at `t=86400`. -/
def c3db1 : DB :=
  (TokenService.create_refresh_token ⟨[c3user], [], []⟩ 0 c3user "d" none
    false "r1" 1 10).2

/-- Store after a second `create_session` for the same device at `t=100000`,
after the first credential expired. -/
def c3db2 : DB :=
  (TokenService.create_refresh_token c3db1 100000 c3user "d" none false
    "r2" 2 11).2

/-- Store for C3's amended-claim witness: one active (unexpired) credential
for device `"d"`. -/
def c3wtok : RefreshTok :=
  ⟨1, 1, hash_token "r1", 10, 86400, false, "d", none, "", 0, 0⟩

def c3wdb : DB := ⟨[c3user], [c3wtok], []⟩

/-- Store for the ip-fallback branch of C3's amended claim: one active
credential with an empty device string, identified only by its ip. -/
def c3ipTok : RefreshTok :=
  ⟨3, 1, hash_token "q1", 12, 86400, false, "", some "1.2.3.4", "", 0, 0⟩

def c3ipdb : DB := ⟨[c3user], [c3ipTok], []⟩

/-! ## Concrete store for claim C5: one live credential to rotate -/

def c5user : User := ⟨1, "u@x.com"⟩

def c5tokA : RefreshTok :=
  ⟨1, 1, hash_token "rawA", 10, 1000, false, "dev", none, "", 0, 0⟩

def c5db : DB := ⟨[c5user], [c5tokA], []⟩

def c5access : SignedTok :=
  TokenService.create_access_token 99 c5user (some 10) none 5

/-- `c5db` after `rotate("rawA")` at `t=5`: A revoked, successor (`"rawB"`)
in the same family inheriting the remaining lifetime. -/
def c5dbAfter : DB :=
  ⟨[c5user],
   [⟨1, 1, hash_token "rawA", 10, 1000, true, "dev", none, "", 0, 0⟩,
    ⟨2, 1, hash_token "rawB", 10, 1000, false, "dev", none, "", 5, 5⟩],
   []⟩

set_option maxRecDepth 8000

/-- C1: replaying `"rawA"` against `c1dbB` is detected as reuse and fails with
the reuse-detection error, but because `rotate_refresh_token` is wrapped in
`transaction.atomic` the family-wide `update(is_revoked=True)` is rolled back
when the exception escapes: the post-state is unchanged (`c1dbB`), so
`is_session_alive` is false for the replayed credential A (revoked durably by
the first rotation) yet still TRUE for its successor B — the claim requires it
to be false for both. -/
theorem rotate_reuse_revocation_rolled_back :
    TokenService.rotate_refresh_token c1dbA 5 99 "rawA" "rawB" 2
      = .ok ((c1access, "rawB", c1user), c1dbB)
    ∧ TokenService.rotate_refresh_token c1dbB 6 99 "rawA" "rawC" 3
      = .error (.tokenInvalid "Refresh token reuse detected")
    ∧ TokenService.is_session_alive c1dbB 7 "rawA" = false
    ∧ TokenService.is_session_alive c1dbB 7 "rawB" = true :=
  ⟨rfl, rfl, rfl, rfl⟩

/-! ## Consumed-state checks precede expiry checks (claim C9) -/

/-- C9: in both failure cascades the consumed-state check comes first, each
stated as an independent universal property over any store.  Whenever the
looked-up refresh credential is revoked — in particular also expired — the
rotation fails with the reuse `TokenInvalidError("Refresh token reuse
detected")`, never `TokenExpiredError`; and whenever the looked-up magic-link
token is used — in particular also expired — verification fails with
`TokenInvalidError("Magic link has already been used")`, never
`TokenExpiredError`. -/
theorem consumed_checks_precede_expiry
    (db : DB) (now : Time) (secret : Nat) (raw fr : String) (fid : Nat) :
    (∀ tok, db.refresh.find? (fun t => t.tokenHash == hash_token raw)
        = some tok →
      tok.isRevoked = true → tok.expiresAt ≤ now →
      TokenService.rotate_refresh_token db now secret raw fr fid
        = .error (.tokenInvalid "Refresh token reuse detected"))
    ∧ (∀ m, db.magic.find? (fun x => x.tokenHash == hash_token raw)
        = some m →
      m.isUsed = true → m.expiresAt ≤ now →
      MagicLinkService.verify db now raw
        = .error (.tokenInvalid "Magic link has already been used")) := by
  constructor
  · intro tok htok hrev _hexp
    simp only [TokenService.rotate_refresh_token, htok, hrev, if_true]
  · intro m hm hused _hmexp
    simp only [MagicLinkService.verify, hm, hused, if_true]

theorem consumed_checks_precede_expiry_witness :
    TokenService.rotate_refresh_token c9db 100 7 "z" "w" 2
      = .error (.tokenInvalid "Refresh token reuse detected")
    ∧ MagicLinkService.verify c9db 100 "z"
      = .error (.tokenInvalid "Magic link has already been used") :=
  ⟨(consumed_checks_precede_expiry c9db 100 7 "z" "w" 2).1 c9tok rfl rfl
     (by decide),
   (consumed_checks_precede_expiry c9db 100 7 "z" "w" 2).2 c9m rfl rfl
     (by decide)⟩

/-! ## Helper lemmas -/

/-- `find?` commutes with a row transformer that does not change the value of
the search predicate (e.g. an UPDATE that only flips a flag while the lookup
is by token hash). -/
theorem find?_map_of_pred_eq {α : Type} (l : List α) (p : α → Bool)
    (f : α → α) (hf : ∀ x, p (f x) = p x) :
    (l.map f).find? p = (l.find? p).map f := by
  induction l with
  | nil => rfl
  | cons a l ih =>
    by_cases h : p a = true
    · simp [List.find?, hf, h]
    · simp only [List.map_cons, List.find?, hf a]
      rw [Bool.eq_false_iff.mpr h]
      simpa using ih

/-! ## Magic link is single-use (claim C4) -/

/-- C4: `MagicLinkService.verify` succeeds at most once per secret.  An
unknown secret fails `TokenInvalidError("Invalid magic link")`; an already
used one fails `TokenInvalidError("Magic link has already been used")`; a
fresh but expired one fails `TokenExpiredError`.  A successful call returns
the stored email, requires the row to be unused and unexpired, and (in the
same transaction) marks it used, so any second verify of the same secret —
at any later instant — fails with `TokenInvalidError`. -/
theorem magic_link_single_use (db : DB) (now now2 : Time) (raw em : String)
    (db' : DB) :
    (db.magic.find? (fun x => x.tokenHash == hash_token raw) = none →
       MagicLinkService.verify db now raw
         = .error (.tokenInvalid "Invalid magic link"))
  ∧ (∀ m, db.magic.find? (fun x => x.tokenHash == hash_token raw) = some m →
      (m.isUsed = true →
         MagicLinkService.verify db now raw
           = .error (.tokenInvalid "Magic link has already been used"))
      ∧ (m.isUsed = false → m.expiresAt ≤ now →
         MagicLinkService.verify db now raw
           = .error (.tokenExpired "Magic link has expired"))
      ∧ (MagicLinkService.verify db now raw = .ok (em, db') →
         em = m.email ∧ m.isUsed = false ∧ now < m.expiresAt
         ∧ MagicLinkService.verify db' now2 raw
             = .error (.tokenInvalid "Magic link has already been used"))) := by
  refine ⟨fun hn => ?_, fun m hm => ⟨fun hu => ?_, fun hu hexp => ?_, fun hok => ?_⟩⟩
  · simp only [MagicLinkService.verify, hn]
  · simp only [MagicLinkService.verify, hm, hu, if_true]
  · simp only [MagicLinkService.verify, hm, hu, Bool.false_eq_true, if_false,
      MagicTok.isExpired]
    rw [if_pos (by simpa using hexp)]
  · simp only [MagicLinkService.verify, hm] at hok
    by_cases hu : m.isUsed = true
    · rw [if_pos hu] at hok; simp at hok
    · rw [if_neg hu] at hok
      by_cases hexp : m.expiresAt ≤ now
      · rw [if_pos (by simp [MagicTok.isExpired, hexp])] at hok; simp at hok
      · rw [if_neg (by simp [MagicTok.isExpired, hexp])] at hok
        simp only [Except.ok.injEq, Prod.mk.injEq] at hok
        obtain ⟨hem, hdb⟩ := hok
        have husedf : m.isUsed = false := by simpa using hu
        have hlt : now < m.expiresAt := Nat.not_le.mp hexp
        refine ⟨hem.symm, husedf, hlt, ?_⟩
        subst hdb
        have hfind : ({ db with magic := db.magic.map (fun x =>
              if x.id == m.id then { x with isUsed := true } else x) } : DB).magic.find?
              (fun x => x.tokenHash == hash_token raw)
            = some { m with isUsed := true } := by
          show (db.magic.map _).find? _ = _
          rw [find?_map_of_pred_eq _ _ _ (fun x => by
            by_cases hid : x.id == m.id <;> simp [hid])]
          rw [hm]
          simp
        simp only [MagicLinkService.verify, hfind, if_true]
/-- Witness for C4: a concrete store with one fresh magic-link row; verifying
at `t=10` succeeds with the stored email and the second verify at `t=11`
fails `TokenInvalidError`. -/
theorem magic_link_single_use_witness :
    "a@b.com" = c4m.email ∧ c4m.isUsed = false ∧ 10 < c4m.expiresAt
    ∧ MagicLinkService.verify c4dbUsed 11 "s"
        = .error (.tokenInvalid "Magic link has already been used") :=
  ((magic_link_single_use c4db 10 11 "s" "a@b.com" c4dbUsed).2 c4m rfl).2.2 rfl

/-! ## Access-token verification fails closed (claim C7) -/

/-- C7: `verify_access_token` is a pure function of the server secret, the
input token and the clock; it fails `TokenInvalidError` on a signature
mismatch, on absence of any required claim (`sub`, `email`, `exp`, `type`)
and on a `type` claim other than `"access"`, fails `TokenExpiredError` when
the `exp` claim has passed, and otherwise returns the claims. -/
theorem verify_access_token_fails_closed (secret : Nat) (tok : SignedTok)
    (now e : Time) :
    (tok.sig ≠ jwt_mac secret tok.claims →
       verify_access_token secret tok now
         = .error (.tokenInvalid "Token is invalid"))
  ∧ (tok.claims.sub = none ∨ tok.claims.email = none ∨ tok.claims.exp = none
       ∨ tok.claims.type = none →
       verify_access_token secret tok now
         = .error (.tokenInvalid "Token is invalid"))
  ∧ (tok.sig = jwt_mac secret tok.claims →
     tok.claims.sub.isSome = true → tok.claims.email.isSome = true →
     tok.claims.type.isSome = true → tok.claims.exp = some e → e ≤ now →
       verify_access_token secret tok now
         = .error (.tokenExpired "Token has expired"))
  ∧ (tok.sig = jwt_mac secret tok.claims →
     tok.claims.sub.isSome = true → tok.claims.email.isSome = true →
     tok.claims.exp = some e → now < e → tok.claims.type ≠ some "access" →
     tok.claims.type.isSome = true →
       verify_access_token secret tok now
         = .error (.tokenInvalid "Not an access token"))
  ∧ (tok.sig = jwt_mac secret tok.claims →
     tok.claims.sub.isSome = true → tok.claims.email.isSome = true →
     tok.claims.exp = some e → now < e → tok.claims.type = some "access" →
       verify_access_token secret tok now = .ok tok.claims) := by
  refine ⟨fun hsig => ?_, fun hmiss => ?_,
    fun hsig hsub hemail htype hexp hle => ?_,
    fun hsig hsub hemail hexp hlt htype htypes => ?_,
    fun hsig hsub hemail hexp hlt htype => ?_⟩
  · simp only [verify_access_token, if_pos hsig]
  · by_cases hsig : tok.sig = jwt_mac secret tok.claims
    · have hm : (tok.claims.sub.isNone || tok.claims.email.isNone
          || tok.claims.exp.isNone || tok.claims.type.isNone) = true := by
        rcases hmiss with h | h | h | h <;> simp [h]
      simp only [verify_access_token, hsig, ne_eq, not_true_eq_false, if_false,
        hm, if_true]
    · simp only [verify_access_token, if_pos hsig]
  · obtain ⟨sv, hsv⟩ := Option.isSome_iff_exists.mp hsub
    obtain ⟨mv, hmv⟩ := Option.isSome_iff_exists.mp hemail
    obtain ⟨tv, htv⟩ := Option.isSome_iff_exists.mp htype
    simp [verify_access_token, hsig, hsv, hmv, htv, hexp, hle]
  · obtain ⟨sv, hsv⟩ := Option.isSome_iff_exists.mp hsub
    obtain ⟨mv, hmv⟩ := Option.isSome_iff_exists.mp hemail
    obtain ⟨tv, htv⟩ := Option.isSome_iff_exists.mp htypes
    have hne : tv ≠ "access" := by
      rw [htv] at htype; simpa using htype
    have hnle : ¬ e ≤ now := Nat.not_le.mpr hlt
    simp [verify_access_token, hsig, hsv, hmv, htv, hexp, hne, hnle]
  · obtain ⟨sv, hsv⟩ := Option.isSome_iff_exists.mp hsub
    obtain ⟨mv, hmv⟩ := Option.isSome_iff_exists.mp hemail
    have hnle : ¬ e ≤ now := Nat.not_le.mpr hlt
    simp [verify_access_token, hsig, hsv, hmv, htype, hexp, hnle]

/-- Witness for C7: the token issued by `create_access_token` with server
secret 42 at `t=0` verifies successfully at `t=10` and returns its claims. -/
theorem verify_access_token_fails_closed_witness :
    verify_access_token 42 c7tok 10 = .ok c7tok.claims :=
  (verify_access_token_fails_closed 42 c7tok 10 900).2.2.2.2 rfl rfl rfl rfl
    (by decide) rfl

/-! ## Magic-link rate limiting (claim C6) -/

/-- C6: `create_and_send` fails with `RateLimitError` exactly when at least
`MAGIC_LINK_RATE_LIMIT = 3` magic-link rows already exist for the normalized
email in the trailing 60 seconds; the failing branch raises before the insert
(and the atomic wrapper discards any state on failure), so no row is created,
while below the limit the call persists exactly one new row with
`expires_at = now + 15 minutes`. -/
theorem magic_link_rate_limited (db : DB) (now : Time) (email : String)
    (ip : Option String) (fr : String) (fid : Nat) :
    (MAGIC_LINK_RATE_LIMIT ≤ recent_count db now (normalized_email email) →
       MagicLinkService.create_and_send db now email ip fr fid
         = .error (.rateLimitExceeded
             "Too many magic link requests. Please wait a moment."))
  ∧ (recent_count db now (normalized_email email) < MAGIC_LINK_RATE_LIMIT →
       MagicLinkService.create_and_send db now email ip fr fid
         = .ok { db with magic := db.magic ++
             [{ id := fid, email := normalized_email email,
                tokenHash := hash_token fr,
                expiresAt := now + MAGIC_LINK_LIFETIME, isUsed := false,
                ipAddress := ip, createdAt := now }] }) := by
  constructor
  · intro h
    simp only [MagicLinkService.create_and_send]
    rw [if_pos h]
  · intro h
    simp only [MagicLinkService.create_and_send]
    rw [if_neg (by omega)]

/-- Witness for C6: with three rows for `a@b.com` inside the window, the 4th
request at `t=30` fails `RateLimitError`; at `t=90` the window has passed and
the request persists a row expiring at `t+900`. -/
theorem magic_link_rate_limited_witness :
    MagicLinkService.create_and_send c6db 30 "a@b.com" none "m4" 4
      = .error (.rateLimitExceeded
          "Too many magic link requests. Please wait a moment.")
    ∧ MagicLinkService.create_and_send c6db 90 "a@b.com" none "m4" 4
      = .ok { c6db with magic := c6db.magic ++
          [{ id := 4, email := normalized_email "a@b.com",
             tokenHash := hash_token "m4", expiresAt := 90 + MAGIC_LINK_LIFETIME,
             isUsed := false, ipAddress := none, createdAt := 90 }] } :=
  ⟨(magic_link_rate_limited c6db 30 "a@b.com" none "m4" 4).1 (by decide),
   (magic_link_rate_limited c6db 90 "a@b.com" none "m4" 4).2 (by decide)⟩

/-! ## Frame effect of the supersede step (claim C10) -/

/-- C10: the supersede step of `create_refresh_token` touches only rows of
this owner that are non-revoked AND non-expired and match the fingerprint
rule in force — equal stored `device_info` when the normalized device string
is non-empty, equal `ip_address` otherwise.  Any row that is revoked, or
expired, or belongs to another owner, or does not match that rule, is
carried into the new store unchanged (an expired non-revoked same-device row
in particular stays non-revoked); and when the normalized device string is
empty and no ip is given, no existing row is modified at all: the store is
exactly the old rows plus the new credential. -/
theorem create_session_frame (db : DB) (now : Time) (user : User)
    (device_info : String) (ip : Option String) (rm : Bool) (fr : String)
    (fid fam : Nat) :
    (normalized_device device_info ≠ "" →
      ∀ t ∈ db.refresh,
        t.isRevoked = true ∨ t.expiresAt ≤ now ∨ t.userId ≠ user.id
          ∨ t.deviceInfo ≠ normalized_device device_info →
        t ∈ (TokenService.create_refresh_token db now user device_info ip rm
              fr fid fam).2.refresh)
  ∧ (normalized_device device_info = "" →
      ∀ t ∈ db.refresh,
        t.isRevoked = true ∨ t.expiresAt ≤ now ∨ t.userId ≠ user.id
          ∨ t.ipAddress ≠ ip →
        t ∈ (TokenService.create_refresh_token db now user device_info ip rm
              fr fid fam).2.refresh)
  ∧ (normalized_device device_info = "" → ip = none →
      (TokenService.create_refresh_token db now user device_info ip rm fr
          fid fam).2.refresh
        = db.refresh
          ++ [freshCredential now user device_info ip rm fr fid fam]) := by
  refine ⟨?_, ?_, ?_⟩
  · intro hnd t ht hcond
    have hguard : (refreshActive now t && t.userId == user.id
        && (t.deviceInfo == normalized_device device_info)) = false := by
      rcases hcond with h | h | h | h
      · simp [refreshActive, h]
      · have hn : ¬ now < t.expiresAt := Nat.not_lt.mpr h
        simp [refreshActive, hn]
      · simp [h]
      · simp [h]
    have hfix : revokeMatch now user.id
        (fun s => s.deviceInfo == normalized_device device_info) t = t := by
      simp [revokeMatch, hguard]
    simp only [TokenService.create_refresh_token]
    rw [if_pos hnd]
    exact List.mem_append_left _ (List.mem_map.mpr ⟨t, ht, hfix⟩)
  · intro hnd t ht hcond
    simp only [TokenService.create_refresh_token]
    rw [if_neg (by simp [hnd])]
    by_cases hip : ip.getD "" ≠ ""
    · rw [if_pos hip]
      have hguard : (refreshActive now t && t.userId == user.id
          && (t.ipAddress == ip)) = false := by
        rcases hcond with h | h | h | h
        · simp [refreshActive, h]
        · have hn : ¬ now < t.expiresAt := Nat.not_lt.mpr h
          simp [refreshActive, hn]
        · simp [h]
        · simp [h]
      have hfix : revokeMatch now user.id (fun s => s.ipAddress == ip) t
          = t := by
        simp [revokeMatch, hguard]
      exact List.mem_append_left _ (List.mem_map.mpr ⟨t, ht, hfix⟩)
    · rw [if_neg hip]
      exact List.mem_append_left _ ht
  · intro hnd hip
    subst hip
    simp only [TokenService.create_refresh_token, freshCredential, hnd]
    simp

/-- Witness for C10: at `t=100` the device-`"d"` credential that expired at
`t=50` survives a new `"d"`-device creation non-revoked, the owner's live
credential for the different device `"e"` is untouched by it, and a creation
with empty device and no ip appends the new row to an untouched store. -/
theorem create_session_frame_witness :
    c10tok ∈ (TokenService.create_refresh_token c10db 100 ⟨1, "u@x.com"⟩ "d"
        none true "new" 2 11).2.refresh
    ∧ c10tok2 ∈ (TokenService.create_refresh_token c10db 100 ⟨1, "u@x.com"⟩
        "d" none true "new" 2 11).2.refresh
    ∧ (TokenService.create_refresh_token c10db 100 ⟨1, "u@x.com"⟩ "" none
        true "new" 2 11).2.refresh
      = c10db.refresh
        ++ [freshCredential 100 ⟨1, "u@x.com"⟩ "" none true "new" 2 11] :=
  ⟨(create_session_frame c10db 100 ⟨1, "u@x.com"⟩ "d" none true "new" 2
      11).1 (by decide) c10tok (by decide) (Or.inr (Or.inl (by decide))),
   (create_session_frame c10db 100 ⟨1, "u@x.com"⟩ "d" none true "new" 2
      11).1 (by decide) c10tok2 (by decide)
     (Or.inr (Or.inr (Or.inr (by decide)))),
   (create_session_frame c10db 100 ⟨1, "u@x.com"⟩ "" none true "new" 2
      11).2.2 (by decide) rfl⟩

/-! ## Single active session per device (claim C3) -/

/-- C3 counterexample: the supersede step only touches rows that are
non-revoked AND non-expired (`RefreshTokenManager.active()` filters on
`expires_at > now`).  After creating a `remember_me=False` session for device
`"d"` at `t=0` (expiry `t=86400`) and a second one for the same device at
`t=100000`, BOTH credentials for that device fingerprint are non-revoked —
the claim's "revokes every existing non-revoked credential" and "leaves
exactly one non-revoked credential for that fingerprint" fail. -/
theorem single_session_per_device_counterexample :
    (c3db2.refresh.filter (fun t => !t.isRevoked
        && t.deviceInfo == normalized_device "d")).length = 2
    ∧ (c3db2.refresh.filter (fun t => !t.isRevoked
        && t.deviceInfo == normalized_device "d")).map (fun t => t.tokenHash)
      = [hash_token "r1", hash_token "r2"] :=
  ⟨rfl, rfl⟩

/-- C3 (amended): `create_session` revokes every existing non-revoked,
NON-EXPIRED credential of the owner matching the supersede rule — same
normalized device fingerprint when it is non-empty, otherwise same ip — so
right after it runs the new credential is the only non-revoked, non-expired
credential of that owner matching the rule (two sessions created for the
same device while the first is still unexpired therefore leave exactly one
non-revoked credential for that fingerprint; expired non-revoked rows are
outside the supersede's reach). -/
theorem create_session_supersedes_active_device (db : DB) (now : Time)
    (user : User) (device_info : String) (ip : Option String) (rm : Bool)
    (fr : String) (fid fam : Nat) :
    (normalized_device device_info ≠ "" →
      (∀ t ∈ (TokenService.create_refresh_token db now user device_info ip
          rm fr fid fam).2.refresh,
        t.userId = user.id → t.isRevoked = false → now < t.expiresAt →
        t.deviceInfo = normalized_device device_info →
        t = freshCredential now user device_info ip rm fr fid fam)
      ∧ freshCredential now user device_info ip rm fr fid fam
        ∈ (TokenService.create_refresh_token db now user device_info ip rm
            fr fid fam).2.refresh)
  ∧ (normalized_device device_info = "" → ip.getD "" ≠ "" →
      (∀ t ∈ (TokenService.create_refresh_token db now user device_info ip
          rm fr fid fam).2.refresh,
        t.userId = user.id → t.isRevoked = false → now < t.expiresAt →
        t.ipAddress = ip →
        t = freshCredential now user device_info ip rm fr fid fam)
      ∧ freshCredential now user device_info ip rm fr fid fam
        ∈ (TokenService.create_refresh_token db now user device_info ip rm
            fr fid fam).2.refresh) := by
  constructor
  · intro hnd
    constructor
    · intro t ht huser hrev hexp hdev
      simp only [TokenService.create_refresh_token, if_pos hnd] at ht
      rcases List.mem_append.mp ht with hmap | hnew
      · obtain ⟨s, hs, hfs⟩ := List.mem_map.mp hmap
        exfalso
        by_cases hg : (refreshActive now s && s.userId == user.id
            && (s.deviceInfo == normalized_device device_info)) = true
        · rw [revokeMatch, if_pos hg] at hfs
          rw [← hfs] at hrev
          simp at hrev
        · rw [revokeMatch, if_neg hg] at hfs
          subst hfs
          apply hg
          simp only [refreshActive, Bool.and_eq_true, Bool.not_eq_true',
            decide_eq_true_eq, beq_iff_eq]
          exact ⟨⟨⟨hrev, hexp⟩, huser⟩, hdev⟩
      · rw [List.mem_singleton] at hnew
        exact hnew
    · simp only [TokenService.create_refresh_token, if_pos hnd]
      exact List.mem_append_right _ (List.mem_singleton.mpr rfl)
  · intro hnd hip
    constructor
    · intro t ht huser hrev hexp hipeq
      simp only [TokenService.create_refresh_token] at ht
      rw [if_neg (by simp [hnd]), if_pos hip] at ht
      rcases List.mem_append.mp ht with hmap | hnew
      · obtain ⟨s, hs, hfs⟩ := List.mem_map.mp hmap
        exfalso
        by_cases hg : (refreshActive now s && s.userId == user.id
            && (s.ipAddress == ip)) = true
        · rw [revokeMatch, if_pos hg] at hfs
          rw [← hfs] at hrev
          simp at hrev
        · rw [revokeMatch, if_neg hg] at hfs
          subst hfs
          apply hg
          simp only [refreshActive, Bool.and_eq_true, Bool.not_eq_true',
            decide_eq_true_eq, beq_iff_eq]
          exact ⟨⟨⟨hrev, hexp⟩, huser⟩, hipeq⟩
      · rw [List.mem_singleton] at hnew
        exact hnew
    · simp only [TokenService.create_refresh_token]
      rw [if_neg (by simp [hnd]), if_pos hip]
      exact List.mem_append_right _ (List.mem_singleton.mpr rfl)

/-- Witness for C3's amended claim, exercising both branches of the
supersede rule.  Device branch: a second session for device `"d"` at `t=5`,
while the first credential is still live, leaves exactly one non-revoked
credential for that fingerprint — the new one.  Ip branch: with an empty
device string and ip `1.2.3.4`, a new session leaves exactly one non-revoked
credential for that ip — the new one. -/
theorem create_session_supersedes_active_device_witness :
    ((TokenService.create_refresh_token c3wdb 5 c3user "d" none false "r2" 2
        11).2.refresh.filter (fun t => !t.isRevoked
          && t.deviceInfo == normalized_device "d")).length = 1
    ∧ freshCredential 5 c3user "d" none false "r2" 2 11
      ∈ (TokenService.create_refresh_token c3wdb 5 c3user "d" none false
          "r2" 2 11).2.refresh
    ∧ ((TokenService.create_refresh_token c3ipdb 5 c3user ""
        (some "1.2.3.4") false "q2" 4 13).2.refresh.filter
          (fun t => !t.isRevoked
            && t.ipAddress == some "1.2.3.4")).length = 1
    ∧ freshCredential 5 c3user "" (some "1.2.3.4") false "q2" 4 13
      ∈ (TokenService.create_refresh_token c3ipdb 5 c3user ""
          (some "1.2.3.4") false "q2" 4 13).2.refresh :=
  ⟨by decide,
   ((create_session_supersedes_active_device c3wdb 5 c3user "d" none false
      "r2" 2 11).1 (by decide)).2,
   by decide,
   ((create_session_supersedes_active_device c3ipdb 5 c3user ""
      (some "1.2.3.4") false "q2" 4 13).2 (by decide) (by decide)).2⟩

/-! ## What a successful rotation returns (claim C5) -/

/-- C5 counterexample: at a concrete successful rotation the code returns
`(access_token, new_raw, user)` — the first component is the freshly signed
access token, the second is the fresh raw secret `"rawB"`, and no component
equals the new credential's family id (`10`, stringified `"10"`), contrary
to the claimed `(new_raw_secret, new_family_id, user)` shape. -/
theorem rotate_return_shape_counterexample :
    TokenService.rotate_refresh_token c5db 5 99 "rawA" "rawB" 2
      = .ok ((c5access, "rawB", c5user), c5dbAfter)
    ∧ "rawB" ≠ toString (10 : Nat) :=
  ⟨rfl, by decide⟩

/-- C5 (amended): on success `rotate_refresh_token` returns the triple
`(access_token, new_raw_secret, user)`: a freshly signed access token whose
`tfm` claim carries the old credential's family id, the fresh raw refresh
secret, and the resolved owner.  The family id itself is not a component of
the return value; it travels inside the access token, and the new credential
is issued in the same family. -/
theorem rotate_returns_access_raw_user (db : DB) (now : Time) (secret : Nat)
    (raw fr : String) (fid : Nat) (tok : RefreshTok) (acc : SignedTok)
    (nr : String) (u : User) (db' : DB)
    (htok : db.refresh.find? (fun t => t.tokenHash == hash_token raw)
      = some tok)
    (h : TokenService.rotate_refresh_token db now secret raw fr fid
      = .ok ((acc, nr, u), db')) :
    nr = fr
    ∧ u = (db.users.find? (fun x => x.id == tok.userId)).getD ⟨tok.userId, ""⟩
    ∧ acc = TokenService.create_access_token secret u (some tok.tokenFamily)
        none now
    ∧ acc.claims.tfm = some tok.tokenFamily
    ∧ acc.claims.type = some "access"
    ∧ (∃ nt ∈ db'.refresh, nt.tokenHash = hash_token fr
        ∧ nt.tokenFamily = tok.tokenFamily) := by
  simp only [TokenService.rotate_refresh_token, htok] at h
  by_cases hrev : tok.isRevoked = true
  · rw [if_pos hrev] at h; simp at h
  · rw [if_neg hrev] at h
    by_cases hexp : tok.isExpired now = true
    · rw [if_pos hexp] at h; simp at h
    · rw [if_neg hexp] at h
      simp only [Except.ok.injEq, Prod.mk.injEq] at h
      obtain ⟨⟨hacc, hnr, hu⟩, hdb⟩ := h
      subst hacc; subst hnr; subst hu; subst hdb
      refine ⟨rfl, rfl, rfl, rfl, rfl, ?_⟩
      refine ⟨_, List.mem_append_right _ (List.mem_singleton.mpr rfl),
        rfl, rfl⟩

/-- Witness for C5's amended claim at the concrete rotation of `c5db`. -/
theorem rotate_returns_access_raw_user_witness :
    "rawB" = "rawB"
    ∧ c5user
      = (c5db.users.find? (fun x => x.id == c5tokA.userId)).getD
          ⟨c5tokA.userId, ""⟩
    ∧ c5access = TokenService.create_access_token 99 c5user
        (some c5tokA.tokenFamily) none 5
    ∧ c5access.claims.tfm = some c5tokA.tokenFamily
    ∧ c5access.claims.type = some "access"
    ∧ (∃ nt ∈ c5dbAfter.refresh, nt.tokenHash = hash_token "rawB"
        ∧ nt.tokenFamily = c5tokA.tokenFamily) :=
  rotate_returns_access_raw_user c5db 5 99 "rawA" "rawB" 2 c5tokA c5access
    "rawB" c5user c5dbAfter rfl rfl

/-! ## Rotation preserves absolute expiry (claim C2) -/

/-- The supersede transformer never changes a row's token hash. -/
theorem revokeMatch_tokenHash (now : Time) (uid : Nat)
    (cond : RefreshTok → Bool) (s : RefreshTok) :
    (revokeMatch now uid cond s).tokenHash = s.tokenHash := by
  unfold revokeMatch; split <;> rfl

/-- `find?` skips a prefix containing no match. -/
theorem find?_append_none {α : Type} (l₁ l₂ : List α) (p : α → Bool)
    (h : l₁.find? p = none) : (l₁ ++ l₂).find? p = l₂.find? p := by
  induction l₁ with
  | nil => rfl
  | cons a l ih =>
    by_cases hpa : p a = true
    · rw [List.find?_cons_of_pos _ hpa] at h
      exact absurd h (by simp)
    · have hpa' : ¬ p a := by simpa using hpa
      rw [List.find?_cons_of_neg _ hpa'] at h
      rw [List.cons_append, List.find?_cons_of_neg _ hpa']
      exact ih h

/-- One successful rotation step: the credential found under the fresh secret
afterwards carries exactly the old credential's `expires_at` and
`token_family`. -/
theorem rotate_step_expiry (db : DB) (now : Time) (secret : Nat)
    (raw fr : String) (fid : Nat) (tok : RefreshTok) (acc : SignedTok)
    (nr : String) (u : User) (db' : DB)
    (htok : db.refresh.find? (fun t => t.tokenHash == hash_token raw)
      = some tok)
    (hfresh : ∀ s ∈ db.refresh, s.tokenHash ≠ hash_token fr)
    (h : TokenService.rotate_refresh_token db now secret raw fr fid
      = .ok ((acc, nr, u), db')) :
    nr = fr
    ∧ ∃ nt, db'.refresh.find? (fun t => t.tokenHash == hash_token fr)
        = some nt
      ∧ nt.expiresAt = tok.expiresAt ∧ nt.tokenFamily = tok.tokenFamily := by
  simp only [TokenService.rotate_refresh_token, htok] at h
  by_cases hrev : tok.isRevoked = true
  · rw [if_pos hrev] at h; simp at h
  · rw [if_neg hrev] at h
    by_cases hexp : tok.isExpired now = true
    · rw [if_pos hexp] at h; simp at h
    · rw [if_neg hexp] at h
      simp only [Except.ok.injEq, Prod.mk.injEq] at h
      obtain ⟨⟨_, hnr, _⟩, hdb⟩ := h
      refine ⟨hnr.symm, ?_⟩
      have hnle : ¬ tok.expiresAt ≤ now := fun hc =>
        hexp (by simp [RefreshTok.isExpired, hc])
      have hle : now ≤ tok.expiresAt := Nat.le_of_lt (Nat.not_le.mp hnle)
      have hmapped : (db.refresh.map (fun t =>
          if t.id == tok.id then { t with isRevoked := true } else t)).find?
          (fun t => t.tokenHash == hash_token fr) = none := by
        rw [List.find?_eq_none]
        intro x hx
        obtain ⟨s, hs, hfs⟩ := List.mem_map.mp hx
        have hhash : x.tokenHash = s.tokenHash := by
          subst hfs; split <;> rfl
        simp only [beq_iff_eq, hhash]
        exact hfresh s hs
      refine ⟨⟨fid, tok.userId, hash_token fr, tok.tokenFamily,
          now + (tok.expiresAt - now), false, tok.deviceInfo, tok.ipAddress,
          tok.location, now, now⟩, ?_, ?_, rfl⟩
      · rw [← hdb]
        show (_ ++ [_]).find? _ = _
        rw [find?_append_none _ _ _ hmapped]
        exact List.find?_cons_of_pos _ (by simp)
      · exact Nat.add_sub_cancel' hle

/-- A chain of successful rotations preserves the tracked credential's
absolute `expires_at` and its family. -/
theorem rotateChain_preserves (secret : Nat)
    (steps : List (Time × String × Nat)) :
    ∀ (db : DB) (raw : String) (tok : RefreshTok) (raw' : String) (db' : DB),
    db.refresh.find? (fun t => t.tokenHash == hash_token raw) = some tok →
    rotateChainFresh secret db raw steps = true →
    rotateChain secret db raw steps = .ok (raw', db') →
    ∃ tok', db'.refresh.find? (fun t => t.tokenHash == hash_token raw')
        = some tok'
      ∧ tok'.expiresAt = tok.expiresAt
      ∧ tok'.tokenFamily = tok.tokenFamily := by
  induction steps with
  | nil =>
    intro db raw tok raw' db' h0 _ hok
    simp only [rotateChain, Except.ok.injEq, Prod.mk.injEq] at hok
    obtain ⟨h1, h2⟩ := hok
    subst h1; subst h2
    exact ⟨tok, h0, rfl, rfl⟩
  | cons step rest ih =>
    obtain ⟨t, fr, fid⟩ := step
    intro db raw tok raw' db' h0 hfr hok
    simp only [rotateChain] at hok
    simp only [rotateChainFresh, Bool.and_eq_true] at hfr
    obtain ⟨hall, hrest⟩ := hfr
    cases hrot : TokenService.rotate_refresh_token db t secret raw fr fid with
    | error e => rw [hrot] at hok; simp at hok
    | ok res =>
      obtain ⟨⟨acc, nr, u⟩, db1⟩ := res
      rw [hrot] at hok hrest
      have hfresh : ∀ s ∈ db.refresh, s.tokenHash ≠ hash_token fr := by
        intro s hs
        have := List.all_eq_true.mp hall s hs
        simpa using this
      obtain ⟨hnr, nt, hfind, hexp, hfam⟩ :=
        rotate_step_expiry db t secret raw fr fid tok acc nr u db1 h0
          hfresh hrot
      rw [hnr] at hok hrest
      obtain ⟨tok', hfind', hexp', hfam'⟩ := ih db1 fr nt raw' db' hfind
        hrest hok
      exact ⟨tok', hfind', hexp'.trans hexp, hfam'.trans hfam⟩

/-- C2: a credential first issued at `t0` with TTL `T` has
`expires_at = t0 + T`, and after any number of successful rotations at
arbitrary later times the credential found under the final secret still has
`expires_at = t0 + T` (each rotation gives the successor
`now + (old.expires_at - now)`, the remaining lifetime) and still belongs to
the original family. -/
theorem rotation_preserves_absolute_expiry (secret : Nat) (db0 : DB)
    (t0 : Time) (user : User) (device_info : String) (ip : Option String)
    (rm : Bool) (fr0 : String) (fid0 fam0 : Nat)
    (steps : List (Time × String × Nat)) (raw' : String) (db' : DB)
    (hfresh0 : ∀ s ∈ db0.refresh, s.tokenHash ≠ hash_token fr0)
    (hchain : rotateChainFresh secret
      (TokenService.create_refresh_token db0 t0 user device_info ip rm fr0
        fid0 fam0).2 fr0 steps = true)
    (hok : rotateChain secret
      (TokenService.create_refresh_token db0 t0 user device_info ip rm fr0
        fid0 fam0).2 fr0 steps = .ok (raw', db')) :
    ∃ tok', db'.refresh.find? (fun t => t.tokenHash == hash_token raw')
        = some tok'
      ∧ tok'.expiresAt = t0 + (if rm then REFRESH_TOKEN_LIFETIME
          else REFRESH_TOKEN_SESSION_LIFETIME)
      ∧ tok'.tokenFamily = fam0 := by
  have h0 : (TokenService.create_refresh_token db0 t0 user device_info ip rm
      fr0 fid0 fam0).2.refresh.find?
      (fun t => t.tokenHash == hash_token fr0)
      = some
        { id := fid0, userId := user.id, tokenHash := hash_token fr0,
          tokenFamily := fam0,
          expiresAt := t0 + (if rm then REFRESH_TOKEN_LIFETIME
            else REFRESH_TOKEN_SESSION_LIFETIME),
          isRevoked := false, deviceInfo := normalized_device device_info,
          ipAddress := ip, location := resolve_location ip,
          lastUsedAt := t0, createdAt := t0 } := by
    simp only [TokenService.create_refresh_token]
    have hnone : ∀ (cond : RefreshTok → Bool),
        (db0.refresh.map (revokeMatch t0 user.id cond)).find?
          (fun t => t.tokenHash == hash_token fr0) = none := by
      intro cond
      rw [List.find?_eq_none]
      intro x hx
      obtain ⟨s, hs, hfs⟩ := List.mem_map.mp hx
      have hhash : x.tokenHash = s.tokenHash := by
        subst hfs; exact revokeMatch_tokenHash t0 user.id cond s
      simp only [beq_iff_eq, hhash]
      exact hfresh0 s hs
    have hnone' : db0.refresh.find?
        (fun t => t.tokenHash == hash_token fr0) = none := by
      rw [List.find?_eq_none]
      intro x hx
      simp only [beq_iff_eq]
      exact hfresh0 x hx
    split_ifs <;>
      first
      | (rw [find?_append_none _ _ _ (hnone _)]; simp [List.find?_cons])
      | (rw [find?_append_none _ _ _ hnone']; simp [List.find?_cons])
  obtain ⟨tok', hfind, hexp, hfam⟩ := rotateChain_preserves secret steps _
    fr0 _ raw' db' h0 hchain hok
  exact ⟨tok', hfind, hexp, hfam⟩

/-- Witness for C2: create at `t0=0` with `remember_me=True` (TTL 30 days),
rotate at `t=5` and `t=9`; the final credential (`"rC"`) still expires at
`0 + 30 days` and is still in family 10. -/
theorem rotation_preserves_absolute_expiry_witness :
    ∃ tok', c2dbFinal.refresh.find?
        (fun t => t.tokenHash == hash_token "rC") = some tok'
      ∧ tok'.expiresAt = 0 + REFRESH_TOKEN_LIFETIME
      ∧ tok'.tokenFamily = 10 :=
  rotation_preserves_absolute_expiry 99 ⟨[c2user], [], []⟩ 0 c2user "dev"
    none true "rA" 1 10 c2steps "rC" c2dbFinal
    (by intro s hs; simp at hs) (by decide) rfl

/-! ## Session listing dedup (claim C8) -/

/-- The dedup loop returns a sublist of its input. -/
theorem dedupByFp_sublist (l : List RefreshTok) :
    ∀ seen : List String, List.Sublist (dedupByFp seen l) l := by
  induction l with
  | nil => intro seen; simp [dedupByFp]
  | cons a l ih =>
    intro seen
    simp only [dedupByFp]
    by_cases h : session_fingerprint a ∈ seen
    · rw [if_pos h]
      exact (ih seen).cons a
    · rw [if_neg h]
      exact (ih _).cons₂ a

/-- No row kept by the dedup loop has a fingerprint that was already seen. -/
theorem dedupByFp_not_seen (l : List RefreshTok) :
    ∀ (seen : List String), ∀ t ∈ dedupByFp seen l,
      session_fingerprint t ∉ seen := by
  induction l with
  | nil => intro seen t ht; simp [dedupByFp] at ht
  | cons a l ih =>
    intro seen t ht
    simp only [dedupByFp] at ht
    by_cases h : session_fingerprint a ∈ seen
    · rw [if_pos h] at ht
      exact ih seen t ht
    · rw [if_neg h] at ht
      rcases List.mem_cons.mp ht with rfl | ht'
      · exact h
      · intro hc
        exact ih _ t ht' (List.mem_cons_of_mem _ hc)

/-- The dedup loop keeps at most one row per fingerprint. -/
theorem dedupByFp_nodup (l : List RefreshTok) :
    ∀ seen : List String, (dedupByFp seen l).Pairwise
      (fun a b => session_fingerprint a ≠ session_fingerprint b) := by
  induction l with
  | nil => intro seen; simp [dedupByFp]
  | cons a l ih =>
    intro seen
    simp only [dedupByFp]
    by_cases h : session_fingerprint a ∈ seen
    · rw [if_pos h]; exact ih seen
    · rw [if_neg h]
      refine List.Pairwise.cons ?_ (ih _)
      intro b hb hc
      exact dedupByFp_not_seen l _ b hb (hc ▸ List.mem_cons_self _ _)

/-- On a list sorted most-recently-active-first, the row the dedup loop keeps
for a fingerprint dominates the `last_used_at` of every row of that
fingerprint. -/
theorem dedupByFp_max (t s : RefreshTok)
    (hfp : session_fingerprint s = session_fingerprint t) :
    ∀ (l : List RefreshTok) (seen : List String),
    l.Pairwise byRecency → t ∈ dedupByFp seen l → s ∈ l →
    session_fingerprint t ∉ seen → s.lastUsedAt ≤ t.lastUsedAt := by
  intro l
  induction l with
  | nil => intro seen _ _ hs _; simp at hs
  | cons a l ih =>
    intro seen hl ht hs hseen
    obtain ⟨ha, hl'⟩ := List.pairwise_cons.mp hl
    simp only [dedupByFp] at ht
    by_cases h : session_fingerprint a ∈ seen
    · rw [if_pos h] at ht
      rcases List.mem_cons.mp hs with rfl | hs'
      · exact absurd (hfp ▸ h) hseen
      · exact ih seen hl' ht hs' hseen
    · rw [if_neg h] at ht
      rcases List.mem_cons.mp ht with rfl | ht'
      · rcases List.mem_cons.mp hs with rfl | hs'
        · exact Nat.le_refl _
        · exact ha s hs'
      · have htns := dedupByFp_not_seen l _ t ht'
        rcases List.mem_cons.mp hs with rfl | hs'
        · exact absurd (hfp ▸ List.mem_cons_self _ _) htns
        · exact ih _ hl' ht' hs' htns

/-- Every fingerprint present in the input appears in the dedup output. -/
theorem dedupByFp_covers (s : RefreshTok) :
    ∀ (l : List RefreshTok) (seen : List String),
    s ∈ l → session_fingerprint s ∉ seen →
    ∃ t ∈ dedupByFp seen l,
      session_fingerprint t = session_fingerprint s := by
  intro l
  induction l with
  | nil => intro seen hs _; simp at hs
  | cons a l ih =>
    intro seen hs hns
    simp only [dedupByFp]
    by_cases h : session_fingerprint a ∈ seen
    · rw [if_pos h]
      rcases List.mem_cons.mp hs with rfl | hs'
      · exact absurd h hns
      · exact ih seen hs' hns
    · rw [if_neg h]
      by_cases hfa : session_fingerprint s = session_fingerprint a
      · exact ⟨a, List.mem_cons_self _ _, hfa.symm⟩
      · rcases List.mem_cons.mp hs with rfl | hs'
        · exact absurd rfl hfa
        · obtain ⟨t, htmem, htfp⟩ := ih (session_fingerprint a :: seen) hs'
            (by
              intro hc
              rcases List.mem_cons.mp hc with h1 | h2
              · exact hfa h1
              · exact hns h2)
          exact ⟨t, List.mem_cons_of_mem _ htmem, htfp⟩

/-- C8: `get_active_sessions(user)` returns only the user's non-revoked,
non-expired credentials, ordered most-recently-active first, with pairwise
distinct `(device, ip)` fingerprints; every fingerprint among the user's
active credentials is represented, and the representative kept for a
fingerprint is the most recently active credential with that fingerprint —
in particular, two active credentials sharing `(device, ip)` with different
`last_active_at` collapse to the more recently active one. -/
theorem list_sessions_dedup (db : DB) (now : Time) (userId : Nat) :
    (∀ t ∈ TokenService.get_active_sessions db now userId,
       t ∈ db.refresh ∧ t.userId = userId ∧ t.isRevoked = false
         ∧ now < t.expiresAt)
  ∧ (TokenService.get_active_sessions db now userId).Pairwise
      (fun a b => session_fingerprint a ≠ session_fingerprint b)
  ∧ (TokenService.get_active_sessions db now userId).Pairwise byRecency
  ∧ (∀ s ∈ for_user db now userId,
       ∃ t ∈ TokenService.get_active_sessions db now userId,
         session_fingerprint t = session_fingerprint s)
  ∧ (∀ t ∈ TokenService.get_active_sessions db now userId,
     ∀ s ∈ for_user db now userId,
       session_fingerprint s = session_fingerprint t →
       s.lastUsedAt ≤ t.lastUsedAt) := by
  have hsorted : (List.insertionSort byRecency
      (for_user db now userId)).Pairwise byRecency :=
    List.sorted_insertionSort byRecency (for_user db now userId)
  refine ⟨?_, ?_, ?_, ?_, ?_⟩
  · intro t ht
    have hmem : t ∈ List.insertionSort byRecency (for_user db now userId) :=
      (dedupByFp_sublist _ []).mem ht
    have hmem' : t ∈ for_user db now userId :=
      (List.mem_insertionSort byRecency).mp hmem
    have := List.mem_filter.mp hmem'
    obtain ⟨hdb, hcond⟩ := this
    simp only [Bool.and_eq_true, refreshActive, Bool.not_eq_true',
      decide_eq_true_eq, beq_iff_eq] at hcond
    exact ⟨hdb, hcond.2, hcond.1.1, hcond.1.2⟩
  · exact dedupByFp_nodup _ []
  · exact hsorted.sublist (dedupByFp_sublist _ [])
  · intro s hs
    exact dedupByFp_covers s _ []
      ((List.mem_insertionSort byRecency).mpr hs) (by simp)
  · intro t ht s hs hfp
    exact dedupByFp_max t s hfp _ [] hsorted ht
      ((List.mem_insertionSort byRecency).mpr hs) (by simp)

/-- Witness for C8: with two live credentials sharing `(device "d", ip
9.9.9.9)` last used at `t=10` and `t=20`, the listing is exactly the more
recent credential, and the theorem bounds the other's `last_used_at` by it. -/
theorem list_sessions_dedup_witness :
    TokenService.get_active_sessions c8db 0 1 = [c8tokNew]
    ∧ c8tokOld.lastUsedAt ≤ c8tokNew.lastUsedAt :=
  ⟨by decide,
   (list_sessions_dedup c8db 0 1).2.2.2.2 c8tokNew (by decide) c8tokOld
     (by decide) (by decide)⟩

end Sentinel
